import Mathlib

/-!
Shallow embedding of `src/hmt_escrow/crypto.py` (ECIES over secp256k1).

Byte strings are `List Nat` (each entry a byte value).  The module's own
logic — message framing, key splitting, the KDF loop, the tag check and the
error paths of `encrypt` / `decrypt` — is translated line by line below.
The external cryptographic primitives the module calls (the secp256k1
curve operations from `cryptography`/`eth_keys`, SHA-256, HMAC-SHA256 and
the AES-CTR keystream) are not part of this repository; following the
spec's §6 ("treated as external, trusted primitive libraries") they are
abstracted as the fields of a `Prims` structure, and the properties the
spec assumes of them (output lengths, point decode/encode inverse, ECDH
commutativity) are collected in `GoodPrims`.  A small executable instance
`P0` lets every statement be evaluated on concrete inputs.
-/

/-- Length of public keys: 512 bit keys in uncompressed form, without
format byte (`PUBKEY_LEN = 64` in the source). -/
def PUBKEY_LEN : Nat := 64

/-- ECIES using AES256 and HMAC-SHA-256-32 (`KEY_LEN = 32` in the source). -/
def KEY_LEN : Nat := 32

/-- Python exceptions that can escape the functions under study:
`DecryptionError(msg)` raised by `decrypt` itself, and the
`eth_utils.ValidationError` raised by `eth_keys.keys.PublicKey(bytes)`
when the byte string does not have length 64. -/
inductive PyErr where
  | DecryptionError : String → PyErr
  | ValidationError : PyErr
deriving DecidableEq, Repr

/-- True exactly on the `DecryptionError` exception kind. -/
def PyErr.isDecryptionFailure : PyErr → Bool
  | .DecryptionError _ => true
  | .ValidationError => false

/-- Message of the `DecryptionError` raised in `decrypt` when the embedded
public key bytes do not decode to a curve point
(`f"Failed to generate shared secret with pubkey {shared!r}: {exc}"`;
the wrapped low-level exception text is elided). -/
def invalidKeyMsg (shared : List Nat) : String :=
  "Failed to generate shared secret with pubkey " ++ toString shared

/-- The external primitives used by `crypto.py`, abstracted over the type
`Pub` of elliptic-curve points (public keys).  `keystream k iv n` is the
first `n` bytes of the AES-128-CTR keystream for key `k` and counter
start `iv`; CTR encryption and decryption both XOR with it. -/
structure Prims (Pub : Type) where
  sha256 : List Nat → List Nat
  hmacSha256 : List Nat → List Nat → List Nat
  keystream : List Nat → List Nat → Nat → List Nat
  toBytes : Pub → List Nat
  decode : List Nat → Option Pub
  pubOf : Nat → Pub
  ecdh : Nat → Pub → List Nat

/-- Properties the spec assumes of the external primitives (§6): digest and
tag lengths, keystream length, 64-byte point serialization with
`decode` a left inverse of it, and commutativity of ECDH
(`ecdhAgree(r, recipientPublic) == ecdhAgree(recipientPrivate, R)`). -/
structure GoodPrims {Pub : Type} (prims : Prims Pub) : Prop where
  sha_len : ∀ m, (prims.sha256 m).length = 32
  hmac_len : ∀ k m, (prims.hmacSha256 k m).length = 32
  ks_len : ∀ k iv n, (prims.keystream k iv n).length = n
  pub_len : ∀ p, (prims.toBytes p).length = PUBKEY_LEN
  decode_toBytes : ∀ p, prims.decode (prims.toBytes p) = some p
  dh_comm : ∀ a b, prims.ecdh a (prims.pubOf b) = prims.ecdh b (prims.pubOf a)

/-- Big-endian 4-byte encoding, `struct.pack(">I", n)`. -/
def beBytes4 (n : Nat) : List Nat :=
  [n / 2 ^ 24 % 256, n / 2 ^ 16 % 256, n / 2 ^ 8 % 256, n % 256]

/-- The value `reps = ((KEY_LEN + 7) * 8) / (hash_blocksize * 8)` computed
in `kdf`.  Python 3 `/` is true division, so `reps` is the float
`312 / 512 = 0.609375`, an exact binary rational, modelled here in `ℚ`. -/
def kdfReps : ℚ := ((KEY_LEN + 7) * 8 : ℚ) / (64 * 8)

/-- Numerator `(KEY_LEN + 7) * 8 = 312` of `reps`. -/
def kdfRepsNum : Nat := (KEY_LEN + 7) * 8

/-- Denominator `hash_blocksize * 8 = 512` of `reps` (the SHA-256 block
size is 64 bytes). -/
def kdfRepsDen : Nat := 64 * 8

/-- The loop of `kdf`: `counter = 0; while counter <= reps: counter += 1;
key += sha256(pack(">I", counter) + key_material)`.  The guard
`counter <= reps` is stated in exact integer arithmetic
(`counter * 512 ≤ 312`, see `kdfGuard_iff` below, which proves it equal
to the rational comparison); `fuel` only bounds the iteration count,
which the guard caps at one since `reps < 1`, so any `fuel ≥ 2` computes
the loop's exit value. -/
def kdfGo {Pub : Type} (prims : Prims Pub) (key_material : List Nat) :
    Nat → Nat → List Nat → List Nat
  | 0, _, key => key
  | fuel + 1, counter, key =>
    if counter * kdfRepsDen ≤ kdfRepsNum then
      kdfGo prims key_material fuel (counter + 1)
        (key ++ prims.sha256 (beBytes4 (counter + 1) ++ key_material))
    else key

/-- NIST SP 800-56a concatenation KDF as implemented: run the counter loop
starting from `counter = 0` with empty accumulated `key`, then return
`key[:KEY_LEN]`. -/
def kdf {Pub : Type} (prims : Prims Pub) (key_material : List Nat) : List Nat :=
  (kdfGo prims key_material KEY_LEN 0 []).take KEY_LEN

/-- AES-CTR is a stream cipher: both directions XOR the data with the
keystream determined by the key and the IV. -/
def ctrXor {Pub : Type} (prims : Prims Pub) (key iv data : List Nat) : List Nat :=
  List.zipWith Nat.xor data (prims.keystream key iv data.length)

/-- Performs a key exchange operation using the ECDH algorithm
(`ecdh_agree`): decode the peer's 64 raw bytes (after prefixing the
uncompressed-point marker) into a curve point — `none` models the
`_InvalidPublicKey` raised on a `ValueError` — then scalar-multiply. -/
def ecdhAgree {Pub : Type} (prims : Prims Pub) (privkey : Nat)
    (pubkeyBytes : List Nat) : Option (List Nat) :=
  (prims.decode pubkeyBytes).map (fun p => prims.ecdh privkey p)

/-- Encrypt data with ECIES method to the given public key.  The random
ephemeral private scalar and the random 16-byte IV (`os.urandom(16)`,
AES block size) are explicit arguments.  Returns `none` when
`ecdh_agree` raises on an invalid recipient key object. -/
def encrypt {Pub : Type} (prims : Prims Pub) (ephemeral : Nat) (iv : List Nat)
    (data : List Nat) (pubkey : Pub) (shared_mac_data : List Nat) :
    Option (List Nat) :=
  match ecdhAgree prims ephemeral (prims.toBytes pubkey) with
  | none => none
  | some key_material =>
    let key := kdf prims key_material
    let key_enc := key.take (KEY_LEN / 2)
    let key_mac := prims.sha256 (key.drop (KEY_LEN / 2))
    let ciphertext := ctrXor prims key_enc iv data
    let msg := [4] ++ prims.toBytes (prims.pubOf ephemeral) ++ iv ++ ciphertext
    let tag := prims.hmacSha256 key_mac (msg.drop (1 + PUBKEY_LEN) ++ shared_mac_data)
    some (msg ++ tag)

/-- Slice `shared = data[1 : 1 + PUBKEY_LEN]`. -/
def decryptShared (data : List Nat) : List Nat :=
  (data.drop 1).take PUBKEY_LEN

/-- Slice `tag = data[-KEY_LEN:]`. -/
def decryptTag (data : List Nat) : List Nat :=
  data.drop (data.length - KEY_LEN)

/-- Slice `data[1 + PUBKEY_LEN : -KEY_LEN]`, the `iv || ciphertext` region
the tag authenticates. -/
def decryptMacRegion (data : List Nat) : List Nat :=
  (data.drop (1 + PUBKEY_LEN)).take (data.length - KEY_LEN - (1 + PUBKEY_LEN))

/-- Slice `iv = data[1 + PUBKEY_LEN : 1 + PUBKEY_LEN + blocksize]` with
`blocksize = 16`. -/
def decryptIv (data : List Nat) : List Nat :=
  (data.drop (1 + PUBKEY_LEN)).take 16

/-- Slice `ciphertext = data[1 + PUBKEY_LEN + blocksize : -KEY_LEN]`. -/
def decryptCiphertext (data : List Nat) : List Nat :=
  (data.drop (1 + PUBKEY_LEN + 16)).take (data.length - KEY_LEN - (1 + PUBKEY_LEN + 16))

/-- Decrypt data with ECIES method using the given private key, following
the source line by line: header check (`data[:1] != b"\x04"`), the
`eth_keys.keys.PublicKey(shared)` length-64 validation (which raises
`ValidationError`, not `DecryptionError`), point decoding inside
`ecdh_agree` (whose `_InvalidPublicKey` is re-raised as a
`DecryptionError`), KDF, key splitting, tag verification, and finally
CTR decryption. -/
def decrypt {Pub : Type} (prims : Prims Pub) (data : List Nat) (privkey : Nat)
    (shared_mac_data : List Nat) : Except PyErr (List Nat) :=
  if data.take 1 ≠ [4] then .error (.DecryptionError "wrong ecies header")
  else
    let shared := decryptShared data
    if shared.length ≠ PUBKEY_LEN then .error .ValidationError
    else
      match ecdhAgree prims privkey shared with
      | none => .error (.DecryptionError (invalidKeyMsg shared))
      | some key_material =>
        let key := kdf prims key_material
        let key_enc := key.take (KEY_LEN / 2)
        let key_mac := prims.sha256 (key.drop (KEY_LEN / 2))
        let tag := decryptTag data
        let expected_tag :=
          prims.hmacSha256 key_mac (decryptMacRegion data ++ shared_mac_data)
        if expected_tag ≠ tag then .error (.DecryptionError "Failed to verify tag")
        else .ok (ctrXor prims key_enc (decryptIv data) (decryptCiphertext data))

/-- Composition used by the round-trip property: encrypt to `pubOf sk`,
then decrypt the resulting message with `sk`. -/
def roundtripResult {Pub : Type} (prims : Prims Pub) (ephemeral : Nat)
    (iv m : List Nat) (sk : Nat) (shared_mac_data : List Nat) :
    Option (Except PyErr (List Nat)) :=
  (encrypt prims ephemeral iv m (prims.pubOf sk) shared_mac_data).map
    (fun c => decrypt prims c sk shared_mac_data)

/-- Composition used by the shared-mac-data binding property: encrypt with
mac data `A`, decrypt with mac data `B`. -/
def crossMacResult {Pub : Type} (prims : Prims Pub) (ephemeral : Nat)
    (iv m : List Nat) (sk : Nat) (A B : List Nat) :
    Option (Except PyErr (List Nat)) :=
  (encrypt prims ephemeral iv m (prims.pubOf sk) A).map
    (fun c => decrypt prims c sk B)

/-- The value of the `reps` formula under the integer-division semantics
the spec appeals to: `((KEY_LEN + 7) * 8) / (64 * 8)` with `/` integer
division. -/
def kdfRepsInt : Nat := ((KEY_LEN + 7) * 8) / (64 * 8)

/-- Modelled from the spec: the KDF output as §4.2 describes it — for
counter = 1 up to and including `reps`, concatenate
`SHA256(big-endian 4-byte counter || shared_secret)` in counter order
and truncate to the first `KEY_LEN` bytes. -/
def kdfSpecConcat {Pub : Type} (prims : Prims Pub) (shared_secret : List Nat)
    (reps : Nat) : List Nat :=
  (((List.range reps).map
      (fun i => prims.sha256 (beBytes4 (i + 1) ++ shared_secret))).flatten).take KEY_LEN

/-- Executable stand-in for SHA-256: 32-byte output for every input. -/
def toySha (m : List Nat) : List Nat := (m ++ List.replicate 32 0).take 32

/-- Executable stand-in for HMAC-SHA256: 32-byte output that depends on
the tail of the message (the message is reversed first), so different
`shared_mac_data` suffixes give different tags on short messages. -/
def toyHmac (k m : List Nat) : List Nat :=
  (m.reverse ++ k ++ List.replicate 32 0).take 32

/-- Executable stand-in for the AES-CTR keystream. -/
def toyKeystream (_k _iv : List Nat) (n : Nat) : List Nat := List.replicate n 0

/-- Executable stand-in for 64-byte uncompressed point serialization over
the toy group `Fin 97`. -/
def toyToBytes (p : Fin 97) : List Nat := List.replicate 63 0 ++ [p.val]

/-- Executable stand-in for curve point decoding: accepts exactly the
64-byte strings whose final byte is a group element, rejects the rest
(modelling off-curve points). -/
def toyDecode (l : List Nat) : Option (Fin 97) :=
  match l.drop 63 with
  | [b] => if h : b < 97 then some ⟨b, h⟩ else none
  | _ => none

/-- Executable stand-in for scalar-times-generator in the toy group. -/
def toyPubOf (k : Nat) : Fin 97 := ⟨k % 97, Nat.mod_lt _ (by norm_num)⟩

/-- Executable stand-in for ECDH: multiply the scalar with the point in
the toy group `Fin 97` and spread the result over 32 bytes. -/
def toyEcdh (a : Nat) (p : Fin 97) : List Nat := List.replicate 32 (a * p.val % 97)

/-- Fully executable primitive instance used to evaluate the statements on
concrete inputs. -/
def P0 : Prims (Fin 97) where
  sha256 := toySha
  hmacSha256 := toyHmac
  keystream := toyKeystream
  toBytes := toyToBytes
  decode := toyDecode
  pubOf := toyPubOf
  ecdh := toyEcdh

theorem P0_good : GoodPrims P0 := by
  constructor
  · intro m
    simp [P0, toySha]
  · intro k m
    simp [P0, toyHmac]
    omega
  · intro k iv n
    simp [P0, toyKeystream]
  · intro p
    simp [P0, toyToBytes, PUBKEY_LEN]
  · intro p
    have hd : (List.replicate 63 (0 : Nat) ++ [p.val]).drop 63 = [p.val] :=
      List.drop_left' (by simp)
    simp [P0, toyDecode, toyToBytes, hd]
  · intro a b
    have h1 : ∀ x y : Nat, x * (y % 97) % 97 = x * y % 97 := by
      intro x y
      conv_lhs => rw [Nat.mul_mod, Nat.mod_mod_of_dvd y dvd_rfl, ← Nat.mul_mod]
    simp only [P0, toyEcdh, toyPubOf]
    rw [h1, h1, Nat.mul_comm]

/-- The integer form of the `kdf` loop guard agrees with the exact
rational value of the Python float comparison `counter <= reps`. -/
theorem kdfGuard_iff (c : Nat) :
    ((c : ℚ) ≤ kdfReps) ↔ c * kdfRepsDen ≤ kdfRepsNum := by
  unfold kdfReps kdfRepsNum kdfRepsDen KEY_LEN
  rw [le_div_iff₀ (by norm_num : (0 : ℚ) < 64 * 8)]
  exact_mod_cast Iff.rfl

/-- The kdf loop and hence `kdf` itself reduce to a single digest: the
guard passes only at `counter = 0`, so exactly one iteration runs, with
the post-increment counter value 1. -/
theorem kdf_eq {Pub : Type} (prims : Prims Pub) (km : List Nat) :
    kdf prims km = (prims.sha256 (beBytes4 1 ++ km)).take KEY_LEN := rfl

/-- The kdf output has length exactly `KEY_LEN` whenever the digests have
their SHA-256 length. -/
theorem kdf_length {Pub : Type} {prims : Prims Pub} (hg : GoodPrims prims)
    (km : List Nat) : (kdf prims km).length = KEY_LEN := by
  rw [kdf_eq]
  simp [hg.sha_len, KEY_LEN]

/-- Nat xor cancels itself on the right. -/
theorem xorCancel (a b : Nat) : Nat.xor (Nat.xor a b) b = a := by
  show (a ^^^ b) ^^^ b = a
  rw [Nat.xor_assoc, Nat.xor_self, Nat.xor_zero]

/-- Pointwise xor with the same (sufficiently long) mask twice is the
identity. -/
theorem zipWith_xor_cancel (m ks : List Nat) (h : ks.length = m.length) :
    List.zipWith Nat.xor (List.zipWith Nat.xor m ks) ks = m := by
  induction m generalizing ks with
  | nil => simp
  | cons a t ih =>
    cases ks with
    | nil => simp at h
    | cons b tb =>
      simp only [List.zipWith]
      rw [xorCancel, ih tb (by simpa using h)]

/-- CTR keeps the data length (keystream lengths being exact). -/
theorem ctrXor_length {Pub : Type} {prims : Prims Pub} (hg : GoodPrims prims)
    (key iv m : List Nat) : (ctrXor prims key iv m).length = m.length := by
  simp [ctrXor, hg.ks_len]

/-- CTR decryption undoes CTR encryption under the same key and IV. -/
theorem ctrXor_cancel {Pub : Type} {prims : Prims Pub} (hg : GoodPrims prims)
    (key iv m : List Nat) :
    ctrXor prims key iv (ctrXor prims key iv m) = m := by
  unfold ctrXor
  rw [List.length_zipWith, hg.ks_len, min_self]
  exact zipWith_xor_cancel m _ (hg.ks_len key iv m.length)

/-- Length of an encoded message: `1 + 64 + 16 + len(ciphertext) + 32`. -/
theorem parse_len (pb iv ct tg : List Nat) (hpb : pb.length = 64)
    (hiv : iv.length = 16) (htg : tg.length = 32) :
    ([4] ++ pb ++ iv ++ ct ++ tg).length = 113 + ct.length := by
  simp [hpb, hiv, htg]
  omega

/-- The header slice of an encoded message. -/
theorem parse_take1 (pb iv ct tg : List Nat) :
    ([4] ++ pb ++ iv ++ ct ++ tg).take 1 = [4] := rfl

/-- The `data[1:65]` slice of an encoded message is the embedded public
key. -/
theorem parse_shared (pb iv ct tg : List Nat) (hpb : pb.length = 64) :
    decryptShared ([4] ++ pb ++ iv ++ ct ++ tg) = pb := by
  have hD : [4] ++ pb ++ iv ++ ct ++ tg = [4] ++ (pb ++ (iv ++ (ct ++ tg))) := by
    simp [List.append_assoc]
  unfold decryptShared
  have h1 : ([4] : List Nat).length = 1 := rfl
  rw [hD, List.drop_left' h1]
  exact List.take_left' hpb

/-- The `data[-32:]` slice of an encoded message is the tag. -/
theorem parse_tag (pb iv ct tg : List Nat) (hpb : pb.length = 64)
    (hiv : iv.length = 16) (htg : tg.length = 32) :
    decryptTag ([4] ++ pb ++ iv ++ ct ++ tg) = tg := by
  have hD : [4] ++ pb ++ iv ++ ct ++ tg = ([4] ++ pb ++ iv ++ ct) ++ tg := by
    simp [List.append_assoc]
  unfold decryptTag
  rw [hD]
  exact List.drop_left' (by simp [hpb, hiv, htg, KEY_LEN]; omega)

/-- The `data[65:-32]` slice of an encoded message is `iv ++ ciphertext`. -/
theorem parse_macRegion (pb iv ct tg : List Nat) (hpb : pb.length = 64)
    (hiv : iv.length = 16) (htg : tg.length = 32) :
    decryptMacRegion ([4] ++ pb ++ iv ++ ct ++ tg) = iv ++ ct := by
  have hD : [4] ++ pb ++ iv ++ ct ++ tg = ([4] ++ pb) ++ ((iv ++ ct) ++ tg) := by
    simp [List.append_assoc]
  unfold decryptMacRegion
  rw [hD, List.drop_left' (by simp [hpb, PUBKEY_LEN])]
  exact List.take_left' (by simp [hpb, hiv, htg, KEY_LEN, PUBKEY_LEN]; omega)

/-- The `data[65:81]` slice of an encoded message is the IV. -/
theorem parse_iv (pb iv ct tg : List Nat) (hpb : pb.length = 64)
    (hiv : iv.length = 16) :
    decryptIv ([4] ++ pb ++ iv ++ ct ++ tg) = iv := by
  have hD : [4] ++ pb ++ iv ++ ct ++ tg = ([4] ++ pb) ++ (iv ++ (ct ++ tg)) := by
    simp [List.append_assoc]
  unfold decryptIv
  rw [hD, List.drop_left' (by simp [hpb, PUBKEY_LEN])]
  exact List.take_left' hiv

/-- The `data[81:-32]` slice of an encoded message is the ciphertext. -/
theorem parse_ciphertext (pb iv ct tg : List Nat) (hpb : pb.length = 64)
    (hiv : iv.length = 16) (htg : tg.length = 32) :
    decryptCiphertext ([4] ++ pb ++ iv ++ ct ++ tg) = ct := by
  have hD : [4] ++ pb ++ iv ++ ct ++ tg = (([4] ++ pb) ++ iv) ++ (ct ++ tg) := by
    simp [List.append_assoc]
  unfold decryptCiphertext
  rw [hD, List.drop_left' (by simp [hpb, hiv, PUBKEY_LEN])]
  exact List.take_left' (by simp [hpb, hiv, htg, KEY_LEN, PUBKEY_LEN]; omega)

/-- Key material derived on the encrypt side. -/
def encKey {Pub : Type} (prims : Prims Pub) (ephemeral : Nat) (pk : Pub) : List Nat :=
  kdf prims (prims.ecdh ephemeral pk)

/-- The ciphertext produced on the encrypt side: CTR encryption of the
plaintext under `key_enc = K[0:16]`. -/
def encCt {Pub : Type} (prims : Prims Pub) (ephemeral : Nat) (iv m : List Nat)
    (pk : Pub) : List Nat :=
  ctrXor prims ((encKey prims ephemeral pk).take 16) iv m

/-- The tag produced on the encrypt side: HMAC-SHA256 under
`key_mac = SHA256(K[16:32])` over `iv || ciphertext || shared_mac_data`. -/
def encTagOf {Pub : Type} (prims : Prims Pub) (ephemeral : Nat) (iv m : List Nat)
    (pk : Pub) (shared_mac_data : List Nat) : List Nat :=
  prims.hmacSha256 (prims.sha256 ((encKey prims ephemeral pk).drop 16))
    (iv ++ encCt prims ephemeral iv m pk ++ shared_mac_data)

/-- Closed form of `encrypt` on any (good) primitives: the wire message is
`0x04 || R || iv || ciphertext || tag` with the ciphertext and tag given
by the key-splitting rule. -/
theorem encrypt_eq {Pub : Type} {prims : Prims Pub} (hg : GoodPrims prims)
    (ephemeral : Nat) (iv m : List Nat) (pk : Pub) (smd : List Nat) :
    encrypt prims ephemeral iv m pk smd =
      some ([4] ++ prims.toBytes (prims.pubOf ephemeral) ++ iv ++
        encCt prims ephemeral iv m pk ++ encTagOf prims ephemeral iv m pk smd) := by
  unfold encrypt ecdhAgree
  rw [hg.decode_toBytes]
  have hdrop : ([4] ++ prims.toBytes (prims.pubOf ephemeral) ++ iv ++
      ctrXor prims ((kdf prims (prims.ecdh ephemeral pk)).take (KEY_LEN / 2)) iv m).drop
        (1 + PUBKEY_LEN) =
      iv ++ ctrXor prims ((kdf prims (prims.ecdh ephemeral pk)).take (KEY_LEN / 2)) iv m := by
    have hD : [4] ++ prims.toBytes (prims.pubOf ephemeral) ++ iv ++
        ctrXor prims ((kdf prims (prims.ecdh ephemeral pk)).take (KEY_LEN / 2)) iv m =
        ([4] ++ prims.toBytes (prims.pubOf ephemeral)) ++
          (iv ++ ctrXor prims ((kdf prims (prims.ecdh ephemeral pk)).take (KEY_LEN / 2)) iv m) := by
      simp [List.append_assoc]
    rw [hD]
    exact List.drop_left' (by simp [hg.pub_len]; omega)
  simp only [Option.map_some']
  rw [hdrop]
  unfold encTagOf encCt encKey
  simp [List.append_assoc, KEY_LEN]

/-- Behaviour of `decrypt` on any correctly framed message
`0x04 || R || iv || ct || tg` (64-byte `R`, 16-byte `iv`, 32-byte `tg`):
the header and length guards pass, then either the embedded key fails to
decode, or the tag is checked against HMAC over `iv || ct || smd` under
the re-derived keys and CTR decryption runs only on success. -/
theorem decrypt_encode {Pub : Type} (prims : Prims Pub)
    (R iv ct tg : List Nat) (sk : Nat) (smd : List Nat)
    (hpb : R.length = 64) (hiv : iv.length = 16) (htg : tg.length = 32) :
    decrypt prims ([4] ++ R ++ iv ++ ct ++ tg) sk smd =
      match prims.decode R with
      | none => .error (.DecryptionError (invalidKeyMsg R))
      | some p =>
        if prims.hmacSha256 (prims.sha256 ((kdf prims (prims.ecdh sk p)).drop 16))
            (iv ++ ct ++ smd) ≠ tg
        then .error (.DecryptionError "Failed to verify tag")
        else .ok (ctrXor prims ((kdf prims (prims.ecdh sk p)).take 16) iv ct) := by
  unfold decrypt ecdhAgree
  rw [parse_take1, parse_shared R iv ct tg hpb, parse_tag R iv ct tg hpb hiv htg,
    parse_macRegion R iv ct tg hpb hiv htg, parse_iv R iv ct tg hpb hiv,
    parse_ciphertext R iv ct tg hpb hiv htg]
  cases hdec : prims.decode R with
  | none => simp [hpb, PUBKEY_LEN, hdec]
  | some p => simp [hpb, PUBKEY_LEN, hdec, KEY_LEN]

/-- C1: for every valid key pair `(sk, pk = sk·G)`, every byte string `m`
(including empty), every ephemeral scalar and 16-byte IV consumed from
the randomness source, and the same `shared_mac_data` supplied to both
calls, `decrypt(encrypt(m, pk, smd), sk, smd)` succeeds and returns
exactly `m`. -/
theorem encrypt_decrypt_roundtrip {Pub : Type} {prims : Prims Pub}
    (hg : GoodPrims prims) (ephemeral sk : Nat) (m iv smd : List Nat)
    (hiv : iv.length = 16) :
    roundtripResult prims ephemeral iv m sk smd = some (.ok m) := by
  unfold roundtripResult
  rw [encrypt_eq hg, Option.map_some']
  rw [decrypt_encode prims (prims.toBytes (prims.pubOf ephemeral)) iv
      (encCt prims ephemeral iv m (prims.pubOf sk))
      (encTagOf prims ephemeral iv m (prims.pubOf sk) smd) sk smd
      (by simp [hg.pub_len, PUBKEY_LEN]) hiv (by simp [encTagOf, hg.hmac_len])]
  rw [hg.decode_toBytes]
  simp only [encTagOf, encCt, encKey]
  rw [hg.dh_comm sk ephemeral]
  simp [ctrXor_cancel hg]

/-- Witness for C1: a concrete round trip over the executable primitives
recovers the plaintext `[1, 2, 3]`. -/
theorem encrypt_decrypt_roundtrip_witness :
    roundtripResult P0 3 (List.replicate 16 5) [1, 2, 3] 2 [] = some (.ok [1, 2, 3]) :=
  encrypt_decrypt_roundtrip P0_good 3 2 [1, 2, 3] (List.replicate 16 5) [] (by decide)

/-- C4: on any input whose first byte is not `0x04`, `decrypt` raises
`DecryptionError("wrong ecies header")`.  The statement holds for every
primitive instance `prims`, so the result cannot depend on the ECDH or
KDF primitives: no key agreement is attempted before the failure. -/
theorem decrypt_wrong_header {Pub : Type} (prims : Prims Pub) (data : List Nat)
    (sk : Nat) (smd : List Nat) (hhd : data.take 1 ≠ [4]) :
    decrypt prims data sk smd = .error (.DecryptionError "wrong ecies header") := by
  unfold decrypt
  rw [if_pos hhd]

/-- Witness for C4: the spec's concrete invalid-header input, `0x05`
followed by 96 zero bytes. -/
theorem decrypt_wrong_header_witness :
    decrypt P0 ([5] ++ List.replicate 96 0) 2 [] =
      .error (.DecryptionError "wrong ecies header") :=
  decrypt_wrong_header P0 ([5] ++ List.replicate 96 0) 2 [] (by decide)

/-- C10: on the empty byte string `data[:1]` is the empty slice, which
compares unequal to `b"\x04"`, so `decrypt` raises
`DecryptionError("wrong ecies header")` — no out-of-bounds access, and
(as the statement holds for every primitive instance) no other byte or
primitive is touched. -/
theorem decrypt_empty_input {Pub : Type} (prims : Prims Pub) (sk : Nat)
    (smd : List Nat) :
    decrypt prims [] sk smd = .error (.DecryptionError "wrong ecies header") := by
  unfold decrypt
  rw [if_pos (by decide)]

/-- Counterexample for C3: the one-byte input `b"\x04"` has length < 97,
yet `decrypt` fails with the eth_keys `ValidationError` — not with the
`DecryptionError` decryption-failure kind the claim requires. -/
theorem decrypt_short_input_counterexample :
    List.length [4] < 97 ∧
    decrypt P0 [4] 2 [] = .error .ValidationError ∧
    PyErr.isDecryptionFailure .ValidationError = false := by
  exact ⟨by decide, rfl, by decide⟩

/-- C3 corrected: `decrypt` has no explicit minimum-length check.  An input
shorter than 65 bytes fails before key agreement, but the error kind
depends on the header byte: with a correct `0x04` header the 64-byte
validation inside `eth_keys.keys.PublicKey` raises `ValidationError`
(not `DecryptionError`); only a wrong header byte gives
`DecryptionError("wrong ecies header")`. -/
theorem decrypt_short_input_errors {Pub : Type} (prims : Prims Pub)
    (data : List Nat) (sk : Nat) (smd : List Nat) (hlen : data.length < 65) :
    decrypt prims data sk smd =
      if data.take 1 = [4] then .error .ValidationError
      else .error (.DecryptionError "wrong ecies header") := by
  have hlen64 : (decryptShared data).length ≠ PUBKEY_LEN := by
    simp [decryptShared, PUBKEY_LEN]
    omega
  by_cases hh : data.take 1 = [4]
  · simp [decrypt, hh, hlen64]
  · simp [decrypt, hh]

/-- Witness for C3's corrected statement at the concrete input `b"\x04"`. -/
theorem decrypt_short_input_errors_witness :
    decrypt P0 [4] 2 [] =
      (if ([4] : List Nat).take 1 = [4] then Except.error PyErr.ValidationError
       else Except.error (PyErr.DecryptionError "wrong ecies header")) :=
  decrypt_short_input_errors P0 [4] 2 [] (by decide)

/-- Counterexample for C2: `encrypt(b"hello", pk)` yields a 118-byte
message, not the 113 bytes (claimed to equal 97 + 5) of the claim. -/
theorem encrypt_hello_length_counterexample :
    (encrypt P0 3 (List.replicate 16 5) [104, 101, 108, 108, 111]
        (P0.pubOf 2) []).map List.length = some 118 ∧
    (118 : Nat) ≠ 113 ∧ (118 : Nat) ≠ 97 + 5 := by
  exact ⟨rfl, by decide, by decide⟩

/-- C2 corrected: the message is laid out as `0x04 || ephemeral_pubkey
(64 bytes) || iv (16 bytes) || ciphertext (len(m) bytes) || tag
(32 bytes)`, first byte `0x04`, with total length
`1 + 64 + 16 + len(m) + 32 = 113 + len(m)` (118 bytes for the 5-byte
plaintext, not `97 + len(m)` and not 113). -/
theorem encrypt_layout_length {Pub : Type} {prims : Prims Pub}
    (hg : GoodPrims prims) (ephemeral : Nat) (iv m : List Nat) (pk : Pub)
    (smd : List Nat) (hiv : iv.length = 16) :
    encrypt prims ephemeral iv m pk smd =
      some ([4] ++ prims.toBytes (prims.pubOf ephemeral) ++ iv ++
        encCt prims ephemeral iv m pk ++ encTagOf prims ephemeral iv m pk smd) ∧
    (prims.toBytes (prims.pubOf ephemeral)).length = 64 ∧
    (encCt prims ephemeral iv m pk).length = m.length ∧
    (encTagOf prims ephemeral iv m pk smd).length = 32 ∧
    ([4] ++ prims.toBytes (prims.pubOf ephemeral) ++ iv ++
      encCt prims ephemeral iv m pk ++ encTagOf prims ephemeral iv m pk smd).take 1
      = [4] ∧
    ([4] ++ prims.toBytes (prims.pubOf ephemeral) ++ iv ++
      encCt prims ephemeral iv m pk ++ encTagOf prims ephemeral iv m pk smd).length
      = 113 + m.length := by
  refine ⟨encrypt_eq hg ephemeral iv m pk smd, by simp [hg.pub_len, PUBKEY_LEN],
    by simpa [encCt] using ctrXor_length hg _ iv m,
    by simp [encTagOf, hg.hmac_len], parse_take1 _ _ _ _, ?_⟩
  rw [parse_len _ _ _ _ (by simp [hg.pub_len, PUBKEY_LEN]) hiv
    (by simp [encTagOf, hg.hmac_len])]
  simp [encCt, ctrXor_length hg]

/-- Witness for C2's corrected statement at a concrete 5-byte plaintext. -/
theorem encrypt_layout_length_witness :
    encrypt P0 3 (List.replicate 16 5) [104, 101, 108, 108, 111] (P0.pubOf 2) [] =
      some ([4] ++ P0.toBytes (P0.pubOf 3) ++ List.replicate 16 5 ++
        encCt P0 3 (List.replicate 16 5) [104, 101, 108, 108, 111] (P0.pubOf 2) ++
        encTagOf P0 3 (List.replicate 16 5) [104, 101, 108, 108, 111] (P0.pubOf 2) []) ∧
    (P0.toBytes (P0.pubOf 3)).length = 64 ∧
    (encCt P0 3 (List.replicate 16 5) [104, 101, 108, 108, 111] (P0.pubOf 2)).length
      = List.length [104, 101, 108, 108, 111] ∧
    (encTagOf P0 3 (List.replicate 16 5) [104, 101, 108, 108, 111] (P0.pubOf 2) []).length
      = 32 ∧
    ([4] ++ P0.toBytes (P0.pubOf 3) ++ List.replicate 16 5 ++
      encCt P0 3 (List.replicate 16 5) [104, 101, 108, 108, 111] (P0.pubOf 2) ++
      encTagOf P0 3 (List.replicate 16 5) [104, 101, 108, 108, 111] (P0.pubOf 2) []).take 1
      = [4] ∧
    ([4] ++ P0.toBytes (P0.pubOf 3) ++ List.replicate 16 5 ++
      encCt P0 3 (List.replicate 16 5) [104, 101, 108, 108, 111] (P0.pubOf 2) ++
      encTagOf P0 3 (List.replicate 16 5) [104, 101, 108, 108, 111] (P0.pubOf 2) []).length
      = 113 + List.length [104, 101, 108, 108, 111] :=
  encrypt_layout_length P0_good 3 (List.replicate 16 5) [104, 101, 108, 108, 111]
    (P0.pubOf 2) [] (by decide)

/-- Counterexample for C5: under the integer semantics named by the claim
the `reps` formula yields 0, not 1, and with `reps = 0` the described
concatenation for counters `1..reps` is empty and differs from the
actual 32-byte `kdf` output. -/
theorem kdf_reps_int_counterexample :
    kdfRepsInt = 0 ∧ kdfRepsInt ≠ 1 ∧ kdf P0 [] ≠ kdfSpecConcat P0 [] kdfRepsInt := by
  exact ⟨rfl, by decide, by decide⟩

/-- C5 corrected: `reps = ((KEY_LEN + 7) * 8) / (64 * 8)` is `0.609375` in
Python (0 under integer division), not 1; nevertheless the loop runs
exactly once, with post-increment counter value 1, so `kdf(s)` equals
the digest concatenation for counters 1 up to 1 truncated to `KEY_LEN`
bytes — `SHA256(BE4(1) || s)[:32]` — and the output length is exactly
`KEY_LEN`.  `kdf` is a pure function of its input. -/
theorem kdf_single_digest {Pub : Type} {prims : Prims Pub}
    (hg : GoodPrims prims) (s : List Nat) :
    kdf prims s = kdfSpecConcat prims s 1 ∧ (kdf prims s).length = KEY_LEN := by
  constructor
  · rw [kdf_eq]
    have hr : List.range 1 = [0] := rfl
    simp [kdfSpecConcat, hr, List.flatten]
  · exact kdf_length hg s

/-- Witness for C5's corrected statement on a concrete shared secret. -/
theorem kdf_single_digest_witness :
    kdf P0 [6] = kdfSpecConcat P0 [6] 1 ∧ (kdf P0 [6]).length = KEY_LEN :=
  kdf_single_digest P0_good [6]

/-- C6: in the encrypt pipeline, `key_enc = K[0:16]`,
`key_mac = SHA256(K[16:32])`, and the tag is HMAC-SHA256 over exactly
`iv || ciphertext || shared_mac_data` (see `encCt`/`encTagOf`, written
with `K.take 16` and `K.drop 16`); in the decrypt pipeline the MAC'd
region `data[65:-32]` of a full-length message is exactly the parsed
`iv || ciphertext`, so the verified tag is HMAC-SHA256 over
`iv || ciphertext || shared_mac_data` there too. -/
theorem keysplit_tag_layout {Pub : Type} {prims : Prims Pub}
    (hg : GoodPrims prims) (ephemeral : Nat) (iv m : List Nat) (pk : Pub)
    (smd data : List Nat) (hdata : 113 ≤ data.length) :
    encrypt prims ephemeral iv m pk smd =
      some ([4] ++ prims.toBytes (prims.pubOf ephemeral) ++ iv ++
        ctrXor prims ((kdf prims (prims.ecdh ephemeral pk)).take 16) iv m ++
        prims.hmacSha256
          (prims.sha256 ((kdf prims (prims.ecdh ephemeral pk)).drop 16))
          (iv ++ ctrXor prims ((kdf prims (prims.ecdh ephemeral pk)).take 16) iv m
            ++ smd)) ∧
    decryptMacRegion data = decryptIv data ++ decryptCiphertext data := by
  constructor
  · have h := encrypt_eq hg ephemeral iv m pk smd
    simpa [encCt, encTagOf, encKey] using h
  · unfold decryptMacRegion decryptIv decryptCiphertext PUBKEY_LEN KEY_LEN
    have h1 : data.length - 32 - 65 = 16 + (data.length - 32 - 81) := by omega
    have h2 : data.length - 32 - (1 + 64) = 16 + (data.length - 32 - (1 + 64 + 16)) := by
      omega
    rw [h2, List.take_add]
    congr 1
    rw [List.drop_drop]

/-- Witness for C6 at a concrete plaintext and a concrete 113-byte
message. -/
theorem keysplit_tag_layout_witness :
    encrypt P0 3 (List.replicate 16 5) [1, 2, 3] (P0.pubOf 2) [] =
      some ([4] ++ P0.toBytes (P0.pubOf 3) ++ List.replicate 16 5 ++
        ctrXor P0 ((kdf P0 (P0.ecdh 3 (P0.pubOf 2))).take 16) (List.replicate 16 5)
          [1, 2, 3] ++
        P0.hmacSha256
          (P0.sha256 ((kdf P0 (P0.ecdh 3 (P0.pubOf 2))).drop 16))
          (List.replicate 16 5 ++
            ctrXor P0 ((kdf P0 (P0.ecdh 3 (P0.pubOf 2))).take 16)
              (List.replicate 16 5) [1, 2, 3] ++ [])) ∧
    decryptMacRegion (List.replicate 113 9) =
      decryptIv (List.replicate 113 9) ++ decryptCiphertext (List.replicate 113 9) :=
  keysplit_tag_layout P0_good 3 (List.replicate 16 5) [1, 2, 3] (P0.pubOf 2) []
    (List.replicate 113 9) (by decide)

/-- C7: decrypting a message encrypted with `shared_mac_data = A` using a
different `shared_mac_data = B` fails with the tag-verification
`DecryptionError` whenever HMAC-SHA256 separates the two authenticated
strings (the ideal-MAC behaviour the spec assumes of the external
primitive for any `A ≠ B`; the hypothesis forces `A ≠ B`). -/
theorem shared_mac_data_binding {Pub : Type} {prims : Prims Pub}
    (hg : GoodPrims prims) (ephemeral sk : Nat) (m iv A B : List Nat)
    (hiv : iv.length = 16)
    (hsep : prims.hmacSha256
        (prims.sha256 ((encKey prims ephemeral (prims.pubOf sk)).drop 16))
        (iv ++ encCt prims ephemeral iv m (prims.pubOf sk) ++ B)
      ≠ encTagOf prims ephemeral iv m (prims.pubOf sk) A) :
    crossMacResult prims ephemeral iv m sk A B =
      some (.error (.DecryptionError "Failed to verify tag")) := by
  unfold crossMacResult
  rw [encrypt_eq hg, Option.map_some']
  rw [decrypt_encode prims (prims.toBytes (prims.pubOf ephemeral)) iv
      (encCt prims ephemeral iv m (prims.pubOf sk))
      (encTagOf prims ephemeral iv m (prims.pubOf sk) A) sk B
      (by simp [hg.pub_len, PUBKEY_LEN]) hiv (by simp [encTagOf, hg.hmac_len])]
  rw [hg.decode_toBytes]
  simp only [encKey, List.append_assoc] at hsep
  simp only []
  rw [hg.dh_comm sk ephemeral]
  simp [hsep]

/-- Witness for C7: concrete mac data `A = []`, `B = [7]`; the toy tags
differ, and cross-decryption fails with the tag error. -/
theorem shared_mac_data_binding_witness :
    P0.hmacSha256 (P0.sha256 ((encKey P0 3 (P0.pubOf 2)).drop 16))
        (List.replicate 16 5 ++ encCt P0 3 (List.replicate 16 5) [1, 2, 3] (P0.pubOf 2)
          ++ [7])
      ≠ encTagOf P0 3 (List.replicate 16 5) [1, 2, 3] (P0.pubOf 2) [] ∧
    crossMacResult P0 3 (List.replicate 16 5) [1, 2, 3] 2 [] [7] =
      some (.error (.DecryptionError "Failed to verify tag")) :=
  ⟨by decide, shared_mac_data_binding P0_good 3 2 [1, 2, 3] (List.replicate 16 5)
    [] [7] (by decide) (by decide)⟩

/-- The invalid-key message always carries its 45-character fixed text. -/
theorem invalidKeyMsg_length (s : List Nat) : 45 ≤ (invalidKeyMsg s).length := by
  unfold invalidKeyMsg
  rw [String.length_append]
  have h45 : ("Failed to generate shared secret with pubkey " : String).length = 45 := rfl
  omega

/-- The invalid-key message differs from every string shorter than 45
characters, in particular from the other two decryption errors. -/
theorem invalidKeyMsg_ne (s : List Nat) (t : String) (ht : t.length < 45) :
    invalidKeyMsg s ≠ t := by
  intro h
  have hl := congrArg String.length h
  have h45 := invalidKeyMsg_length s
  omega

/-- Counterexample for C8: a wrong-header failure and a tag failure both
surface as `DecryptionError` but with different message strings, so the
error-message granularity does reveal which cause occurred. -/
theorem decrypt_error_messages_counterexample :
    decrypt P0 ([5] ++ List.replicate 112 0) 2 [] =
      .error (.DecryptionError "wrong ecies header") ∧
    decrypt P0 ([4] ++ List.replicate 63 0 ++ [1] ++ List.replicate 16 0 ++
        List.replicate 32 1) 2 [] =
      .error (.DecryptionError "Failed to verify tag") ∧
    ("wrong ecies header" : String) ≠ "Failed to verify tag" := by
  exact ⟨rfl, rfl, by decide⟩

/-- C8 corrected: the three recoverable decrypt failures — wrong header,
undecodable embedded key, tag mismatch — are all raised as the single
exception kind `DecryptionError`, so the kind alone does not identify
the cause; but their message strings are pairwise distinct
(`"wrong ecies header"`, `"Failed to generate shared secret with
pubkey …"`, `"Failed to verify tag"`), so the message granularity does
distinguish the three causes. -/
theorem decrypt_error_kinds {Pub : Type} (prims : Prims Pub)
    (d1 d2 d3 : List Nat) (sk : Nat) (smd : List Nat) (p : Pub)
    (h1 : d1.take 1 ≠ [4])
    (h2a : d2.take 1 = [4]) (h2b : (decryptShared d2).length = PUBKEY_LEN)
    (h2c : prims.decode (decryptShared d2) = none)
    (h3a : d3.take 1 = [4]) (h3b : (decryptShared d3).length = PUBKEY_LEN)
    (h3c : prims.decode (decryptShared d3) = some p)
    (h3d : prims.hmacSha256 (prims.sha256 ((kdf prims (prims.ecdh sk p)).drop 16))
        (decryptMacRegion d3 ++ smd) ≠ decryptTag d3) :
    decrypt prims d1 sk smd = .error (.DecryptionError "wrong ecies header") ∧
    decrypt prims d2 sk smd =
      .error (.DecryptionError (invalidKeyMsg (decryptShared d2))) ∧
    decrypt prims d3 sk smd = .error (.DecryptionError "Failed to verify tag") ∧
    PyErr.isDecryptionFailure (.DecryptionError "wrong ecies header") = true ∧
    PyErr.isDecryptionFailure (.DecryptionError (invalidKeyMsg (decryptShared d2)))
      = true ∧
    PyErr.isDecryptionFailure (.DecryptionError "Failed to verify tag") = true ∧
    invalidKeyMsg (decryptShared d2) ≠ "wrong ecies header" ∧
    invalidKeyMsg (decryptShared d2) ≠ "Failed to verify tag" ∧
    ("wrong ecies header" : String) ≠ "Failed to verify tag" := by
  refine ⟨?_, ?_, ?_, rfl, rfl, rfl, invalidKeyMsg_ne _ _ (by decide),
    invalidKeyMsg_ne _ _ (by decide), by decide⟩
  · unfold decrypt
    rw [if_pos h1]
  · simp [decrypt, ecdhAgree, h2a, h2b, h2c]
  · simp [decrypt, ecdhAgree, h3a, h3b, h3c, h3d, KEY_LEN]

/-- Witness for C8's corrected statement: concrete inputs exercising the
three failure paths. -/
theorem decrypt_error_kinds_witness :
    decrypt P0 [5] 2 [] = .error (.DecryptionError "wrong ecies header") ∧
    decrypt P0 ([4] ++ List.replicate 63 0 ++ [200]) 2 [] =
      .error (.DecryptionError
        (invalidKeyMsg (decryptShared ([4] ++ List.replicate 63 0 ++ [200])))) ∧
    decrypt P0 ([4] ++ List.replicate 63 0 ++ [1] ++ List.replicate 16 0 ++
        List.replicate 32 1) 2 [] =
      .error (.DecryptionError "Failed to verify tag") ∧
    PyErr.isDecryptionFailure (.DecryptionError "wrong ecies header") = true ∧
    PyErr.isDecryptionFailure (.DecryptionError
      (invalidKeyMsg (decryptShared ([4] ++ List.replicate 63 0 ++ [200])))) = true ∧
    PyErr.isDecryptionFailure (.DecryptionError "Failed to verify tag") = true ∧
    invalidKeyMsg (decryptShared ([4] ++ List.replicate 63 0 ++ [200]))
      ≠ "wrong ecies header" ∧
    invalidKeyMsg (decryptShared ([4] ++ List.replicate 63 0 ++ [200]))
      ≠ "Failed to verify tag" ∧
    ("wrong ecies header" : String) ≠ "Failed to verify tag" :=
  decrypt_error_kinds P0 [5] ([4] ++ List.replicate 63 0 ++ [200])
    ([4] ++ List.replicate 63 0 ++ [1] ++ List.replicate 16 0 ++ List.replicate 32 1)
    2 [] (⟨1, by norm_num⟩ : Fin 97)
    (by decide) (by decide) (by decide) (by decide) (by decide) (by decide)
    (by decide) (by decide)

/-- C9: whenever the recomputed HMAC tag differs from the embedded tag,
`decrypt` stops with the tag-verification `DecryptionError` and returns
no plaintext; the same outcome holds after replacing the cipher
keystream primitive by an arbitrary other one, so the decryption key is
never used to decrypt before tag verification succeeds. -/
theorem tag_mismatch_no_plaintext {Pub : Type} (prims : Prims Pub)
    (ks2 : List Nat → List Nat → Nat → List Nat)
    (data : List Nat) (sk : Nat) (smd : List Nat) (p : Pub)
    (h1 : data.take 1 = [4]) (h2 : (decryptShared data).length = PUBKEY_LEN)
    (h3 : prims.decode (decryptShared data) = some p)
    (h4 : prims.hmacSha256 (prims.sha256 ((kdf prims (prims.ecdh sk p)).drop 16))
        (decryptMacRegion data ++ smd) ≠ decryptTag data) :
    decrypt prims data sk smd = .error (.DecryptionError "Failed to verify tag") ∧
    decrypt { prims with keystream := ks2 } data sk smd =
      .error (.DecryptionError "Failed to verify tag") := by
  have hkdf : kdf { prims with keystream := ks2 } (prims.ecdh sk p) =
      kdf prims (prims.ecdh sk p) := rfl
  constructor
  · simp [decrypt, ecdhAgree, h1, h2, h3, h4, KEY_LEN]
  · simp [decrypt, ecdhAgree, h1, h2, h3, h4, hkdf, KEY_LEN]

/-- Witness for C9 at a concrete message whose embedded tag is wrong, with
a concretely different replacement keystream. -/
theorem tag_mismatch_no_plaintext_witness :
    decrypt P0 ([4] ++ List.replicate 63 0 ++ [1] ++ List.replicate 16 0 ++
        List.replicate 32 2) 2 [] =
      .error (.DecryptionError "Failed to verify tag") ∧
    decrypt { P0 with keystream := fun _ _ n => List.replicate n 7 }
        ([4] ++ List.replicate 63 0 ++ [1] ++ List.replicate 16 0 ++
          List.replicate 32 2) 2 [] =
      .error (.DecryptionError "Failed to verify tag") :=
  tag_mismatch_no_plaintext P0 (fun _ _ n => List.replicate n 7)
    ([4] ++ List.replicate 63 0 ++ [1] ++ List.replicate 16 0 ++ List.replicate 32 2)
    2 [] (⟨1, by norm_num⟩ : Fin 97) (by decide) (by decide) (by decide) (by decide)
